import Mathlib

/-!
# Verification of the ingestor-scrapper pipeline core

Shallow embedding, in Lean 4, of the decision logic of the
`ingestor_scrapper` repository:

* locale-specific numeric parsing (`AdapterBcraNormalizer._parse_valor`),
* date parsing (`AdapterBcraNormalizer._parse_fecha`),
* HTML table-row extraction (`AdapterBcraParser._extract_record_from_row`),
* the BCRA and generic normalizers,
* content-type detection (`AdapterScrapyDocumentFetcher._detect_content_type`),
* parser routing (`ParserRouter.select`),
* the two pipeline orchestrators (`BcraUseCase.execute`,
  `UniversalIngestUseCase.execute`).

Modelling conventions:

* Python strings are modelled as Lean `String` / `List Char`; the whitespace
  set of `str.strip()` is modelled by the six ASCII whitespace characters
  (the headers/values handled by this pipeline are ASCII).
* Python `float` values are modelled as exact rationals (`Rat`): every decimal
  literal accepted by the code corresponds to an exact rational, and all
  comparisons made by the specification are between equal decimal literals.
  The special float strings `inf`/`nan` and PEP-515 underscores are not
  modelled; none of the inputs relevant here produce them.
* Exceptions are modelled by `Except String`; fallible collaborators of the
  orchestrators are arbitrary `Except`-valued functions.
* Side effects of the orchestrators (which boundary calls happened) are
  modelled by an explicit trace of stage events, since the claims speak about
  "without invoking the fetcher/parser".
-/

/-- The six ASCII whitespace characters recognized by Python `str.strip()`
(restricted to ASCII, which covers every input this pipeline handles). -/
def isPySpace (c : Char) : Bool :=
  c = ' ' || c = '\t' || c = '\n' || c = '\x0d' || c = '\x0b' || c = '\x0c'

/-- Python `str.strip()` on a character list: drop whitespace from both ends. -/
def stripChars (l : List Char) : List Char :=
  ((l.dropWhile isPySpace).reverse.dropWhile isPySpace).reverse

/-- Python `str.strip()` on a `String`. -/
def pythonStrip (s : String) : String :=
  String.mk (stripChars s.data)

/-- Numeric value of a list of decimal digit characters (most significant first). -/
def natOfDigits (l : List Char) : Nat :=
  l.foldl (fun n c => 10 * n + (c.toNat - '0'.toNat)) 0

/-- Read an optional leading sign; returns (isNegative, rest). -/
def readSign : List Char → Bool × List Char
  | '+' :: r => (false, r)
  | '-' :: r => (true, r)
  | l => (false, l)

/-- `10 ^ n` as a natural number (kept in `Nat` so that proofs by `decide`
can evaluate it). -/
def pow10 (n : Nat) : Nat := 10 ^ n

/-- The exact rational value of a decimal literal with sign `neg`, mantissa
digits worth `mant`, `fracLen` digits after the point, and signed decimal
exponent (`eneg`, `e`). -/
def decimalValue (neg : Bool) (mant : Nat) (fracLen : Nat)
    (eneg : Bool) (e : Nat) : Rat :=
  let num : Int := if neg then -(mant : Int) else (mant : Int)
  if eneg then mkRat num (pow10 fracLen * pow10 e)
  else mkRat (num * (pow10 e : Int)) (pow10 fracLen)

/-- Finish parsing a float literal after the mantissa: an optional exponent
part `e`/`E` followed by an optionally signed digit string, then end of
input.  `mant` is the integer formed by all mantissa digits and `fracLen`
the number of digits after the decimal point. -/
def finishExp (neg : Bool) (mant : Nat) (fracLen : Nat) : List Char → Option Rat
  | [] => some (decimalValue neg mant fracLen false 0)
  | 'e' :: r =>
      match readSign r with
      | (eneg, r1) =>
        match r1.span Char.isDigit with
        | (ed, r2) =>
          if ed.isEmpty || !r2.isEmpty then none
          else some (decimalValue neg mant fracLen eneg (natOfDigits ed))
  | 'E' :: r =>
      match readSign r with
      | (eneg, r1) =>
        match r1.span Char.isDigit with
        | (ed, r2) =>
          if ed.isEmpty || !r2.isEmpty then none
          else some (decimalValue neg mant fracLen eneg (natOfDigits ed))
  | _ => none

/-- Model of Python `float(s)` on a character list, returning the exact
rational value of a finite decimal literal, or `none` where `float` raises
`ValueError`.  Python strips surrounding whitespace, then accepts an optional
sign, digits with an optional fractional part (at least one digit overall),
and an optional exponent.  (`inf`/`nan`/underscore forms are not modelled;
see the header comment.) -/
def floatOfChars (l0 : List Char) : Option Rat :=
  let l := stripChars l0
  match readSign l with
  | (neg, r1) =>
    match r1.span Char.isDigit with
    | (ip, r2) =>
      match r2 with
      | '.' :: r3 =>
          match r3.span Char.isDigit with
          | (fp, r4) =>
            if ip.isEmpty && fp.isEmpty then none
            else finishExp neg (natOfDigits (ip ++ fp)) fp.length r4
      | _ =>
          if ip.isEmpty then none
          else finishExp neg (natOfDigits ip) 0 r2

/-- `AdapterBcraNormalizer._parse_valor` (adapters/normalizers/bcra.py):
empty or whitespace-only input yields `0.0`; otherwise the string is
stripped, every space character removed, then — if a comma is present —
every dot is removed and each comma becomes a dot, else every dot is
removed; finally the result is parsed as a float, defaulting to `0.0` on
parse failure. -/
def parse_valor (s : String) : Rat :=
  if stripChars s.data = [] then 0
  else
    let cleaned := (stripChars s.data).filter (fun c => c ≠ ' ')
    let cleaned2 :=
      if cleaned.contains ',' then
        (cleaned.filter (fun c => c ≠ '.')).map (fun c => if c = ',' then '.' else c)
      else
        cleaned.filter (fun c => c ≠ '.')
    match floatOfChars cleaned2 with
    | some v => v
    | none => 0

/-- The numeric parser exactly as the claim words it: "strips all
whitespace" — i.e. removes every whitespace character wherever it occurs —
then applies the comma/dot rules and parses as a float, defaulting to
`0.0`.  Stated from the claim's words, for comparison with `parse_valor`. -/
def parse_valor_claimed (s : String) : Rat :=
  let cleaned := s.data.filter (fun c => !isPySpace c)
  let cleaned2 :=
    if cleaned.contains ',' then
      (cleaned.filter (fun c => c ≠ '.')).map (fun c => if c = ',' then '.' else c)
    else
      cleaned.filter (fun c => c ≠ '.')
  match floatOfChars cleaned2 with
  | some v => v
  | none => 0

/-- The amended description of `_parse_valor`: strip leading/trailing
whitespace and remove every space character (U+0020) — other interior
whitespace is left in place — then apply the comma/dot rules and parse as
a float, defaulting to `0.0`.  Written without the source's redundant
early guard for blank input. -/
def parse_valor_amended (s : String) : Rat :=
  let cleaned := (stripChars s.data).filter (fun c => c ≠ ' ')
  let cleaned2 :=
    if cleaned.contains ',' then
      (cleaned.filter (fun c => c ≠ '.')).map (fun c => if c = ',' then '.' else c)
    else
      cleaned.filter (fun c => c ≠ '.')
  match floatOfChars cleaned2 with
  | some v => v
  | none => 0

/-- Python's calendar rule used by `datetime`: leap years. -/
def isLeapYear (y : Nat) : Bool :=
  y % 4 = 0 && (y % 100 ≠ 0 || y % 400 = 0)

/-- Days in a month, as validated by `datetime.datetime`. -/
def daysInMonth (y m : Nat) : Nat :=
  if m = 2 then (if isLeapYear y then 29 else 28)
  else if m = 4 || m = 6 || m = 9 || m = 11 then 30
  else 31

/-- Model of CPython `datetime.strptime(s, "%d/%m/%Y")` on a character list:
`%d` and `%m` match one or two digits (value ranges 1–31 and 1–12), the two
literal `/` must follow, `%Y` matches exactly four digits, the whole input
must be consumed, and the resulting date must be a valid calendar date with
year at least 1 (`datetime.MINYEAR`).  Returns `(year, month, day)` on
success. -/
def strptimeDmy (l : List Char) : Option (Nat × Nat × Nat) :=
  match l.span Char.isDigit with
  | (dd, r1) =>
    match r1 with
    | '/' :: r2 =>
      match r2.span Char.isDigit with
      | (mm, r3) =>
        match r3 with
        | '/' :: r4 =>
          match r4.span Char.isDigit with
          | (yy, r5) =>
            if r5.isEmpty && 1 ≤ dd.length && dd.length ≤ 2
                && 1 ≤ mm.length && mm.length ≤ 2 && yy.length = 4 then
              let d := natOfDigits dd
              let m := natOfDigits mm
              let y := natOfDigits yy
              if 1 ≤ d && 1 ≤ m && m ≤ 12 && 1 ≤ y && d ≤ daysInMonth y m then
                some (y, m, d)
              else none
            else none
        | _ => none
    | _ => none

/-- Decimal digits of `n`, left-padded with zeros to width `w`. -/
def padNum (w n : Nat) : List Char :=
  let s := (Nat.repr n).data
  List.replicate (w - s.length) '0' ++ s

/-- Model of `datetime.strftime("%Y-%m-%d")`: the year, month and day as
zero-padded decimal fields joined by dashes.  (`%Y` is modelled as
four-digit zero-padded; `strptimeDmy` only produces four-digit years, so
the padding is only a formality.) -/
def isoFormat (y m d : Nat) : String :=
  String.mk (padNum 4 y ++ '-' :: padNum 2 m ++ '-' :: padNum 2 d)

/-- `AdapterBcraNormalizer._parse_fecha` (adapters/normalizers/bcra.py):
empty or whitespace-only input yields `""`; otherwise the stripped input is
parsed with `strptime("%d/%m/%Y")` and re-emitted as `YYYY-MM-DD`; if
`strptime` raises, the original (unstripped) string is returned. -/
def parse_fecha (s : String) : String :=
  if stripChars s.data = [] then ""
  else
    match strptimeDmy (stripChars s.data) with
    | some (y, m, d) => isoFormat y m d
    | none => s

/-- `ContentType` enum (core/entities.py). -/
inductive ContentType
  | HTML
  | CSV
  | XLS
  | XLSX
  | PDF
  | UNKNOWN
deriving DecidableEq, Repr

/-- `Document` dataclass (core/entities.py).  Binary payloads are modelled
as byte lists. -/
structure Document where
  url : String
  content_type : ContentType
  bytesContent : Option (List Nat) := none
  text : Option String := none
  status_code : Option Nat := none
deriving DecidableEq, Repr

/-- `Record` dataclass (core/entities.py).  The `data` dict is modelled as
an association list in insertion order (Python dicts preserve insertion
order and have unique keys); `fetched_at` is an abstract timestamp. -/
structure Record where
  data : List (String × String)
  source_url : String
  fetched_at : Nat
deriving DecidableEq, Repr

/-- The `content` field of an `Item`: either free text (generic normalizer)
or the structured `{fecha, valor}` object (BCRA normalizer). -/
inductive ItemContent
  | str (s : String)
  | obj (fecha : String) (valor : Rat)
deriving DecidableEq, Repr

/-- `Item` dataclass (core/entities.py). -/
structure Item where
  title : String
  content : Option ItemContent := none
  url : Option String := none
deriving DecidableEq, Repr

/-- First-match lookup in an association list: Python `dict.__getitem__`
restricted to the string dicts used here (keys are unique in a Python
dict, so first match is the match). -/
def lookupStr : List (String × String) → String → Option String
  | [], _ => none
  | (k, v) :: t, key => if k = key then some v else lookupStr t key

/-- Python `dict.get(key, default)`. -/
def getD (d : List (String × String)) (k dflt : String) : String :=
  (lookupStr d k).getD dflt

/-- A table cell (`td` element) as consumed by `AdapterBcraParser`: the
text of an embedded `a` link, when one exists, and the cell's own text
content.  Both are raw (unstripped); `get_text(strip=True)` is modelled by
`pythonStrip` on the single text content of the cell. -/
structure Cell where
  linkText : Option String := none
  text : String
deriving DecidableEq, Repr

/-- `AdapterBcraParser._extract_detalle` (adapters/parsers/bcra.py):
anchor text of the first cell's embedded link, stripped; empty when the
cell has no link. -/
def extract_detalle (c : Cell) : String :=
  match c.linkText with
  | none => ""
  | some a => pythonStrip a

/-- `AdapterBcraParser._extract_fecha`: stripped text of the second cell. -/
def extract_fecha (c : Cell) : String :=
  pythonStrip c.text

/-- `AdapterBcraParser._extract_valor`: stripped text of the third cell. -/
def extract_valor (c : Cell) : String :=
  pythonStrip c.text

/-- `AdapterBcraParser._is_valid_row`: at least `EXPECTED_CELLS_PER_ROW = 3`
cells. -/
def is_valid_row (cells : List Cell) : Bool :=
  decide (3 ≤ cells.length)

/-- `AdapterBcraParser._is_valid_data`: Python truthiness of the three
strings, i.e. all non-empty. -/
def is_valid_data (detalle fecha valor : String) : Bool :=
  detalle != "" && fecha != "" && valor != ""

/-- `AdapterBcraParser._extract_record_from_row` (adapters/parsers/bcra.py):
reject rows with fewer than 3 cells, extract the three strings from the
first three cells, reject if any is empty, otherwise build the Record with
exactly the keys `detalle`, `fecha`, `valor`, tagged with the source URL
and the capture timestamp (`datetime.now()`, modelled as the parameter
`now`). -/
def extract_record_from_row (row : List Cell) (url : String) (now : Nat) : Option Record :=
  if is_valid_row row then
    match row with
    | c0 :: c1 :: c2 :: _ =>
      let detalle := extract_detalle c0
      let fecha := extract_fecha c1
      let valor := extract_valor c2
      if is_valid_data detalle fecha valor then
        some { data := [("detalle", detalle), ("fecha", fecha), ("valor", valor)],
               source_url := url, fetched_at := now }
      else none
    | _ => none
  else none

/-- Title fallback of `AdapterBcraNormalizer.normalize`:
`record.data.get("detalle", record.data.get("title", ""))`. -/
def bcra_title (data : List (String × String)) : String :=
  match lookupStr data "detalle" with
  | some v => v
  | none => getD data "title" ""

/-- The per-record body of `AdapterBcraNormalizer.normalize`: title from
`detalle`/`title`/`""`, content the `{fecha, valor}` object built by the
two parse helpers on the (possibly missing, defaulted-to-empty) raw
fields, url from `source_url`. -/
def normalizeBcraRecord (r : Record) : Item :=
  { title := bcra_title r.data
    content := some (ItemContent.obj
      (parse_fecha (getD r.data "fecha" ""))
      (parse_valor (getD r.data "valor" "")))
    url := some r.source_url }

/-- `AdapterBcraNormalizer.normalize` (adapters/normalizers/bcra.py).  The
`try/except` around the loop body is modelled away: every operation in the
body is total (`dict.get` with defaults never raises, and the two parse
helpers catch their own failures), so the `except` branch that would skip
a record is unreachable for well-typed records. -/
def bcraNormalize : List Record → List Item
  | [] => []
  | r :: rs => normalizeBcraRecord r :: bcraNormalize rs

/-- Lowercase hex digit, for JSON control-character escapes. -/
def hexDigit (n : Nat) : Char :=
  if n < 10 then Char.ofNat ('0'.toNat + n) else Char.ofNat ('a'.toNat + (n - 10))

/-- Escape of one character inside a JSON string, as produced by
`json.dumps(..., ensure_ascii=False)`: the two mandatory escapes, the
short control escapes, `\u00XX` for other control characters, everything
else verbatim. -/
def jsonEscapeChar (c : Char) : List Char :=
  if c = '"' then ['\\', '"']
  else if c = '\\' then ['\\', '\\']
  else if c = '\n' then ['\\', 'n']
  else if c = '\t' then ['\\', 't']
  else if c = '\x0d' then ['\\', 'r']
  else if c = '\x08' then ['\\', 'b']
  else if c = '\x0c' then ['\\', 'f']
  else if c.toNat < 32 then
    ['\\', 'u', '0', '0', hexDigit (c.toNat / 16), hexDigit (c.toNat % 16)]
  else [c]

/-- A JSON string literal for `s`. -/
def jsonQuote (s : String) : List Char :=
  '"' :: (s.data.map jsonEscapeChar).flatten ++ ['"']

/-- The `"k": "v", ...` pair list of a JSON object, with `json.dumps`'s
default separators. -/
def jsonPairs : List (String × String) → List Char
  | [] => []
  | [(k, v)] => jsonQuote k ++ ':' :: ' ' :: jsonQuote v
  | (k, v) :: t => jsonQuote k ++ ':' :: ' ' :: jsonQuote v ++ ',' :: ' ' :: jsonPairs t

/-- `json.dumps(record.data, ensure_ascii=False)` on a string dict, with
the object braces written via their code points. -/
def jsonDumps (d : List (String × String)) : String :=
  String.mk (Char.ofNat 123 :: jsonPairs d ++ [Char.ofNat 125])

/-- Python truthiness `or`-chain over optional strings: the first value
that is present and non-empty, else `""`. -/
def firstTruthy : List (Option String) → String
  | [] => ""
  | some v :: t => if v = "" then firstTruthy t else v
  | none :: t => firstTruthy t

/-- Title probe of `AdapterGenericNormalizer.normalize`:
`data.get("title") or data.get("name") or data.get("detalle") or ""`. -/
def generic_title (data : List (String × String)) : String :=
  firstTruthy [lookupStr data "title", lookupStr data "name", lookupStr data "detalle"]

/-- The per-record body of `AdapterGenericNormalizer.normalize`. -/
def normalizeGenericRecord (r : Record) : Item :=
  { title := generic_title r.data
    content := some (ItemContent.str (jsonDumps r.data))
    url := some r.source_url }

/-- `AdapterGenericNormalizer.normalize` (adapters/normalizer_generic.py).
As with the BCRA normalizer, the per-record `try/except` is modelled away:
the body is total on well-typed records.  The class holds no mutable
attributes, so the embedding is a pure function of the record list. -/
def genericNormalize : List Record → List Item
  | [] => []
  | r :: rs => normalizeGenericRecord r :: genericNormalize rs

/-- `needle` occurs at the front of `hay`. -/
def listHasPre : List Char → List Char → Bool
  | [], _ => true
  | _ :: _, [] => false
  | a :: as, b :: bs => a == b && listHasPre as bs

/-- Python `needle in hay` on strings: `needle` occurs contiguously
somewhere in `hay`. -/
def listHasSub (needle : List Char) : List Char → Bool
  | [] => listHasPre needle []
  | b :: t => listHasPre needle (b :: t) || listHasSub needle t

/-- Python `hay.endswith(needle)`. -/
def listEndsW (needle hay : List Char) : Bool :=
  listHasPre needle.reverse hay.reverse

/-- Python `str.lower()` (ASCII case folding; the content-type tokens and
headers involved are ASCII). -/
def lowerStr (s : String) : List Char :=
  s.data.map Char.toLower

/-- `AdapterScrapyDocumentFetcher._detect_content_type`
(adapters/fetchers/scrapy.py).  `header` is the decoded `Content-Type`
header (`headers.get("Content-Type", b"").decode("utf-8", "ignore")`,
modelled as the already-decoded string; a missing header is the empty
string), `url` the response URL.  The chain of substring and suffix checks
is reproduced branch for branch. -/
def detect_content_type (header url : String) : ContentType :=
  let h := lowerStr header
  if listHasSub "html".data h then ContentType.HTML
  else if listHasSub "csv".data h then ContentType.CSV
  else if listHasSub "excel".data h || listHasSub "spreadsheet".data h then ContentType.XLSX
  else if listHasSub "xls".data h || listEndsW ".xls".data h then ContentType.XLS
  else if listHasSub "xlsx".data h || listEndsW ".xlsx".data h then ContentType.XLSX
  else if listHasSub "pdf".data h then ContentType.PDF
  else if listEndsW ".csv".data url.data then ContentType.CSV
  else if listEndsW ".xls".data url.data then ContentType.XLS
  else if listEndsW ".xlsx".data url.data then ContentType.XLSX
  else if listEndsW ".pdf".data url.data then ContentType.PDF
  else ContentType.HTML

/-- A parser capability: `parse(Document) -> Record list`, which may raise
(modelled by `Except`). -/
abbrev ParserFun := Document → Except String (List Record)

/-- `ParserRouter.select` (application/parser_router.py): `dict.get` on the
registry — `none` on a lookup miss, never an exception (the model is a
total function). -/
def routerSelect : List (ContentType × ParserFun) → ContentType → Option ParserFun
  | [], _ => none
  | (k, p) :: t, ct => if k = ct then some p else routerSelect t ct

/-- The boundary calls an orchestrator run may perform, recorded as an
explicit trace (the embedding of the orchestrators' side effects). -/
inductive Stage
  | fetch
  | parse
  | norm
  | emit
deriving DecidableEq, Repr

/-- `UniversalIngestUseCase.execute`
(application/universal_ingest_use_case.py): fetch (exceptions caught →
empty), reject `UNKNOWN` content type, route (miss → empty), parse and
normalize (exceptions caught → empty), emit (exceptions caught and
ignored), return the items.  The second component is the trace of boundary
calls made. -/
def universalExecute (fetcher : String → Except String Document)
    (registry : List (ContentType × ParserFun))
    (normalizer : List Record → Except String (List Item))
    (output : List Item → Except String Unit)
    (url : String) : List Item × List Stage :=
  match fetcher url with
  | .error _ => ([], [Stage.fetch])
  | .ok document =>
    if document.content_type = ContentType.UNKNOWN then ([], [Stage.fetch])
    else
      match routerSelect registry document.content_type with
      | none => ([], [Stage.fetch])
      | some p =>
        match p document with
        | .error _ => ([], [Stage.fetch, Stage.parse])
        | .ok records =>
          match normalizer records with
          | .error _ => ([], [Stage.fetch, Stage.parse, Stage.norm])
          | .ok items =>
            match output items with
            | .error _ => (items, [Stage.fetch, Stage.parse, Stage.norm, Stage.emit])
            | .ok _ => (items, [Stage.fetch, Stage.parse, Stage.norm, Stage.emit])

/-- `BcraUseCase.execute` (application/bcra_use_case.py): blank-URL gate
(`not url or not url.strip()`), fetch, empty-text gate
(`not document.text or not document.text.strip()`), parse, empty-records
gate, normalize, empty-items gate, emit (exceptions caught and ignored),
return the items.  The second component is the trace of boundary calls. -/
def bcraExecute (fetcher : String → Except String Document)
    (p : Document → Except String (List Record))
    (normalizer : List Record → Except String (List Item))
    (output : List Item → Except String Unit)
    (url : String) : List Item × List Stage :=
  if stripChars url.data = [] then ([], [])
  else
    match fetcher url with
    | .error _ => ([], [Stage.fetch])
    | .ok document =>
      match document.text with
      | none => ([], [Stage.fetch])
      | some t =>
        if stripChars t.data = [] then ([], [Stage.fetch])
        else
          match p document with
          | .error _ => ([], [Stage.fetch, Stage.parse])
          | .ok records =>
            if records.isEmpty then ([], [Stage.fetch, Stage.parse])
            else
              match normalizer records with
              | .error _ => ([], [Stage.fetch, Stage.parse, Stage.norm])
              | .ok items =>
                if items.isEmpty then ([], [Stage.fetch, Stage.parse, Stage.norm])
                else
                  match output items with
                  | .error _ => (items, [Stage.fetch, Stage.parse, Stage.norm, Stage.emit])
                  | .ok _ => (items, [Stage.fetch, Stage.parse, Stage.norm, Stage.emit])

/-- Fixture: an HTML document as returned by a fetcher. -/
def docHtml : Document :=
  { url := "http://example/bcra", content_type := ContentType.HTML,
    text := some "<tr><td>r</td></tr>" }

/-- Fixture: a document whose content type could not be determined. -/
def docUnknown : Document :=
  { url := "http://example/blob", content_type := ContentType.UNKNOWN,
    text := some "x" }

/-- Fixture: a well-formed BCRA record. -/
def recSample : Record :=
  { data := [("detalle", "Tasa"), ("fecha", "29/10/2025"), ("valor", "1.496,02")],
    source_url := "http://example/bcra", fetched_at := 0 }

/-- Fixture: a record whose data dict is empty (all three fields missing). -/
def recEmpty : Record :=
  { data := [], source_url := "http://example/bcra", fetched_at := 0 }

/-- Fixture: a normalized item. -/
def itemSample : Item :=
  { title := "Tasa", content := some (ItemContent.str "c"), url := some "http://example/bcra" }

/-- Fixture: a fetcher that succeeds with `docHtml`. -/
def fetchOk : String → Except String Document := fun _ => Except.ok docHtml

/-- Fixture: a fetcher that raises. -/
def fetchErr : String → Except String Document := fun _ => Except.error "boom"

/-- Fixture: a parser that succeeds with one record. -/
def parseOk : ParserFun := fun _ => Except.ok [recSample]

/-- Fixture: a parser that raises. -/
def parseErr : ParserFun := fun _ => Except.error "boom"

/-- Fixture: a normalizer that succeeds with one item. -/
def normOk : List Record → Except String (List Item) := fun _ => Except.ok [itemSample]

/-- Fixture: a normalizer that raises. -/
def normErr : List Record → Except String (List Item) := fun _ => Except.error "boom"

/-- Fixture: an output boundary that succeeds. -/
def emitOk : List Item → Except String Unit := fun _ => Except.ok ()

/-- Fixture: an output boundary that raises. -/
def emitErr : List Item → Except String Unit := fun _ => Except.error "boom"

/-- Fixture: a registry holding only an HTML parser. -/
def regHtml : List (ContentType × ParserFun) := [(ContentType.HTML, parseOk)]

/-- Fixture: first cell of a well-formed row (description inside a link). -/
def cellLink : Cell := { linkText := some " Tasa ", text := "" }

/-- Fixture: second cell of a well-formed row (the date). -/
def cellDate : Cell := { text := " 29/10/2025 " }

/-- Fixture: third cell of a well-formed row (the value). -/
def cellValue : Cell := { text := "1.496,02" }

/-- Helper for C1: the source's `_parse_valor` agrees everywhere with the
amended description (which drops the redundant blank-input guard: a blank
input also fails the float parse and so yields `0.0`). -/
theorem parse_valor_eq_amended (s : String) : parse_valor s = parse_valor_amended s := by
  by_cases h : stripChars s.data = []
  · simp only [parse_valor, parse_valor_amended, if_pos h, h]
    rfl
  · simp only [parse_valor, parse_valor_amended, if_neg h]

/-- C1 counterexample: the claim says `_parse_valor` "strips all
whitespace" before the comma/dot rules.  The code only strips the ends and
removes space characters; an interior TAB survives, makes the float parse
fail, and the result is `0.0`, while the claimed algorithm would remove the
TAB and return `40.0`. -/
theorem parse_valor_claim_counter :
    parse_valor "4\t0" = 0 ∧ parse_valor_claimed "4\t0" = 40 ∧ (0 : Rat) ≠ 40 := by
  decide

/-- C1 (amended): `_parse_valor` strips leading/trailing whitespace and
removes all space characters (interior non-space whitespace is kept, and
then fails the float parse, giving `0.0`); if a comma is present it removes
all dots and turns the comma into a decimal point, otherwise it removes all
dots; the result is parsed as a float, with `0.0` on any parse failure and
no exception.  The four specified values hold. -/
theorem parse_valor_spec :
    (∀ s : String, parse_valor s = parse_valor_amended s)
      ∧ parse_valor "1.496,02" = mkRat 149602 100
      ∧ parse_valor "40.764" = 40764
      ∧ parse_valor "" = 0
      ∧ parse_valor "abc" = 0 :=
  ⟨parse_valor_eq_amended, by decide, by decide, by decide, by decide⟩

/-- C2 counterexample: on a whitespace-only input the claim requires the
original string back unchanged on parse failure; `_parse_fecha`'s blank
guard returns the empty string instead. -/
theorem parse_fecha_claim_counter :
    parse_fecha " " = "" ∧ (" " : String) ≠ "" := by
  decide

/-- C2 (amended): `_parse_fecha` accepts exactly the day/month/year format
with `/` separators (what `strptime("%d/%m/%Y")` accepts on the stripped
input) and re-emits it as `YYYY-MM-DD`; on parse failure the original
string is returned unchanged — except that an empty or whitespace-only
input returns the empty string; no exception escapes.  The three specified
values hold. -/
theorem parse_fecha_spec :
    (∀ (s : String) (y m d : Nat), strptimeDmy (stripChars s.data) = some (y, m, d) →
        parse_fecha s = isoFormat y m d)
      ∧ (∀ s : String, strptimeDmy (stripChars s.data) = none →
          stripChars s.data ≠ [] → parse_fecha s = s)
      ∧ (∀ s : String, stripChars s.data = [] → parse_fecha s = "")
      ∧ parse_fecha "29/10/2025" = "2025-10-29"
      ∧ parse_fecha "not-a-date" = "not-a-date"
      ∧ parse_fecha "" = "" := by
  refine ⟨?_, ?_, ?_, by decide, by decide, by decide⟩
  · intro s y m d h
    have hne : stripChars s.data ≠ [] := by
      intro he
      rw [he] at h
      rw [(by decide : strptimeDmy ([] : List Char) = none)] at h
      exact Option.noConfusion h
    simp only [parse_fecha, if_neg hne, h]
  · intro s h hne
    simp only [parse_fecha, if_neg hne, h]
  · intro s h
    simp only [parse_fecha, if_pos h]

/-- C2 witness: the amended theorem applied at concrete inputs. -/
theorem parse_fecha_spec_witness :
    parse_fecha "05/03/1999" = isoFormat 1999 3 5 ∧ parse_fecha "abc" = "abc" :=
  ⟨parse_fecha_spec.1 "05/03/1999" 1999 3 5 (by decide),
   parse_fecha_spec.2.1 "abc" (by decide) (by decide)⟩

/-- C3: a row with fewer than 3 cells yields no Record; a row with at
least 3 cells where any of the three extracted strings (first cell's link
anchor text, second and third cells' text, each stripped) is empty yields
no Record; a well-formed row yields exactly one Record whose data has
exactly the keys `detalle`, `fecha`, `valor` with those strings, tagged
with the source URL. -/
theorem extract_record_spec :
    (∀ (row : List Cell) (url : String) (now : Nat), row.length < 3 →
        extract_record_from_row row url now = none)
      ∧ (∀ (c0 c1 c2 : Cell) (rest : List Cell) (url : String) (now : Nat),
          extract_detalle c0 = "" ∨ extract_fecha c1 = "" ∨ extract_valor c2 = "" →
          extract_record_from_row (c0 :: c1 :: c2 :: rest) url now = none)
      ∧ (∀ (c0 c1 c2 : Cell) (rest : List Cell) (url : String) (now : Nat),
          extract_detalle c0 ≠ "" → extract_fecha c1 ≠ "" → extract_valor c2 ≠ "" →
          extract_record_from_row (c0 :: c1 :: c2 :: rest) url now =
            some { data := [("detalle", extract_detalle c0),
                            ("fecha", extract_fecha c1),
                            ("valor", extract_valor c2)],
                   source_url := url, fetched_at := now }) := by
  refine ⟨?_, ?_, ?_⟩
  · intro row url now h
    have hrow : ¬ (3 ≤ row.length) := by omega
    simp [extract_record_from_row, is_valid_row, hrow]
  · intro c0 c1 c2 rest url now hd
    have hrow : is_valid_row (c0 :: c1 :: c2 :: rest) = true := by
      simp [is_valid_row]
    rcases hd with h | h | h <;>
      simp [extract_record_from_row, hrow, is_valid_data, h]
  · intro c0 c1 c2 rest url now h1 h2 h3
    have hrow : is_valid_row (c0 :: c1 :: c2 :: rest) = true := by
      simp [is_valid_row]
    have hdata : is_valid_data (extract_detalle c0) (extract_fecha c1) (extract_valor c2) = true := by
      simp [is_valid_data, h1, h2, h3]
    simp [extract_record_from_row, hrow, hdata]

/-- C3 witness: the theorem applied to a one-cell row, to a row with an
empty date cell, and to a well-formed row. -/
theorem extract_record_spec_witness :
    extract_record_from_row [cellDate] "u" 0 = none
      ∧ extract_record_from_row [cellLink, { text := "  " }, cellValue] "u" 0 = none
      ∧ extract_record_from_row [cellLink, cellDate, cellValue] "u" 7 =
          some { data := [("detalle", extract_detalle cellLink),
                          ("fecha", extract_fecha cellDate),
                          ("valor", extract_valor cellValue)],
                 source_url := "u", fetched_at := 7 } :=
  ⟨extract_record_spec.1 [cellDate] "u" 0 (by decide),
   extract_record_spec.2.1 cellLink { text := "  " } cellValue [] "u" 0 (Or.inr (Or.inl (by decide))),
   extract_record_spec.2.2 cellLink cellDate cellValue [] "u" 7 (by decide) (by decide) (by decide)⟩

/-- C4 counterexample: a record with all three fields missing is not
skipped — `dict.get` supplies defaults, nothing in the loop body raises,
and the normalizer emits an Item with empty title, empty fecha and valor
`0.0` for it, contradicting the claimed skip-with-warning. -/
theorem bcra_normalize_claim_counter :
    bcraNormalize [recEmpty] =
        [{ title := "", content := some (ItemContent.obj "" 0),
           url := some "http://example/bcra" }]
      ∧ bcraNormalize [recEmpty] ≠ [] := by
  decide

/-- C4 (amended): the BCRA normalizer never skips a record — it emits
exactly one Item per input Record; a record with missing fields is
emitted with the fallback values (title from `detalle` then `title` then
empty, fecha and valor from the empty string, i.e. `""` and `0.0`). -/
theorem bcra_normalize_spec :
    (∀ rs : List Record, (bcraNormalize rs).length = rs.length)
      ∧ (∀ (data : List (String × String)) (su : String) (fa : Nat),
          bcraNormalize [{ data := data, source_url := su, fetched_at := fa }] =
            [{ title := bcra_title data,
               content := some (ItemContent.obj
                 (parse_fecha (getD data "fecha" ""))
                 (parse_valor (getD data "valor" ""))),
               url := some su }]) := by
  constructor
  · intro rs
    induction rs with
    | nil => rfl
    | cons r t ih => simp [bcraNormalize, ih]
  · intro data su fa
    rfl

/-- C5 counterexample: a header containing both `csv` and `html` is
classified HTML, because the `html` token is checked first — the claim's
"regardless of any other tokens present in the header" fails (here even
with a `.csv` URL suffix). -/
theorem detect_csv_claim_counter :
    listHasSub "csv".data (lowerStr "text/csv, text/html") = true
      ∧ detect_content_type "text/csv, text/html" "http://e/data.csv" = ContentType.HTML
      ∧ ContentType.HTML ≠ ContentType.CSV := by
  decide

/-- C5 (amended): for every Content-Type header containing the substring
`csv` (case-insensitive) and not containing `html`, detection yields CSV,
regardless of the URL suffix and of any further tokens in the header. -/
theorem detect_csv_spec :
    ∀ header url : String,
      listHasSub "csv".data (lowerStr header) = true →
      listHasSub "html".data (lowerStr header) = false →
      detect_content_type header url = ContentType.CSV := by
  intro header url hcsv hhtml
  simp [detect_content_type, hcsv, hhtml]

/-- C5 witness: the amended theorem at a concrete header, with a URL whose
suffix would otherwise say XLS. -/
theorem detect_csv_spec_witness :
    detect_content_type "Text/CSV; charset=utf-8" "http://e/file.xls" = ContentType.CSV :=
  detect_csv_spec "Text/CSV; charset=utf-8" "http://e/file.xls" (by decide) (by decide)

/-- C6: a Document of UNKNOWN content type makes the universal
orchestrator return an empty list right after the fetch, with no parser
invocation (the trace records only the fetch); and `ParserRouter.select`
on a content type absent from the registry returns `none` — it is a total
function, so no exception is possible. -/
theorem universal_unknown_spec :
    (∀ (fetcher : String → Except String Document)
        (registry : List (ContentType × ParserFun))
        (normalizer : List Record → Except String (List Item))
        (output : List Item → Except String Unit)
        (url : String) (document : Document),
        fetcher url = Except.ok document →
        document.content_type = ContentType.UNKNOWN →
        universalExecute fetcher registry normalizer output url = ([], [Stage.fetch]))
      ∧ (∀ (registry : List (ContentType × ParserFun)) (ct : ContentType),
          (∀ p, (ct, p) ∉ registry) → routerSelect registry ct = none) := by
  constructor
  · intro f reg n o url doc hf hct
    simp [universalExecute, hf, hct]
  · intro reg ct
    induction reg with
    | nil => intro _; rfl
    | cons kp t ih =>
      intro habs
      obtain ⟨k, p⟩ := kp
      have hk : k ≠ ct := by
        intro he
        exact habs p (by rw [he]; exact List.mem_cons_self _ _)
      have ht : ∀ q, (ct, q) ∉ t := fun q hq => habs q (List.mem_cons_of_mem _ hq)
      simp [routerSelect, hk, ih ht]

/-- C6 witness: the theorem at an UNKNOWN document and at a registry
without a PDF parser. -/
theorem universal_unknown_spec_witness :
    universalExecute (fun _ => Except.ok docUnknown) regHtml normOk emitOk "http://e"
        = ([], [Stage.fetch])
      ∧ routerSelect regHtml ContentType.PDF = none :=
  ⟨universal_unknown_spec.1 (fun _ => Except.ok docUnknown) regHtml normOk emitOk
      "http://e" docUnknown rfl rfl,
   universal_unknown_spec.2 regHtml ContentType.PDF
      (by intro p hp; simp [regHtml] at hp)⟩

/-- C7: in both orchestrators, an exception raised by fetch, parse or
normalize is caught and the run returns the empty item list; an exception
raised by emit after the items were computed is caught and the run still
returns those items.  Stated for each stage of `UniversalIngestUseCase`
(first four conjuncts) and of `BcraUseCase` (last four). -/
theorem stage_exception_spec :
    (∀ (f : String → Except String Document) (reg : List (ContentType × ParserFun))
        (n : List Record → Except String (List Item))
        (o : List Item → Except String Unit) (url e : String),
        f url = Except.error e → (universalExecute f reg n o url).1 = [])
      ∧ (∀ f reg n o (url : String) (doc : Document) (pf : ParserFun) (e : String),
          f url = Except.ok doc → doc.content_type ≠ ContentType.UNKNOWN →
          routerSelect reg doc.content_type = some pf → pf doc = Except.error e →
          (universalExecute f reg n o url).1 = [])
      ∧ (∀ f reg n o (url : String) (doc : Document) (pf : ParserFun)
            (records : List Record) (e : String),
          f url = Except.ok doc → doc.content_type ≠ ContentType.UNKNOWN →
          routerSelect reg doc.content_type = some pf → pf doc = Except.ok records →
          n records = Except.error e →
          (universalExecute f reg n o url).1 = [])
      ∧ (∀ f reg n o (url : String) (doc : Document) (pf : ParserFun)
            (records : List Record) (items : List Item) (e : String),
          f url = Except.ok doc → doc.content_type ≠ ContentType.UNKNOWN →
          routerSelect reg doc.content_type = some pf → pf doc = Except.ok records →
          n records = Except.ok items → o items = Except.error e →
          (universalExecute f reg n o url).1 = items)
      ∧ (∀ (f : String → Except String Document) (p : ParserFun)
            (n : List Record → Except String (List Item))
            (o : List Item → Except String Unit) (url e : String),
          stripChars url.data ≠ [] → f url = Except.error e →
          (bcraExecute f p n o url).1 = [])
      ∧ (∀ f p n o (url : String) (doc : Document) (t e : String),
          stripChars url.data ≠ [] → f url = Except.ok doc →
          doc.text = some t → stripChars t.data ≠ [] → p doc = Except.error e →
          (bcraExecute f p n o url).1 = [])
      ∧ (∀ f p n o (url : String) (doc : Document) (t : String)
            (records : List Record) (e : String),
          stripChars url.data ≠ [] → f url = Except.ok doc →
          doc.text = some t → stripChars t.data ≠ [] → p doc = Except.ok records →
          records.isEmpty = false → n records = Except.error e →
          (bcraExecute f p n o url).1 = [])
      ∧ (∀ f p n o (url : String) (doc : Document) (t : String)
            (records : List Record) (items : List Item) (e : String),
          stripChars url.data ≠ [] → f url = Except.ok doc →
          doc.text = some t → stripChars t.data ≠ [] → p doc = Except.ok records →
          records.isEmpty = false → n records = Except.ok items →
          items.isEmpty = false → o items = Except.error e →
          (bcraExecute f p n o url).1 = items) := by
  refine ⟨?_, ?_, ?_, ?_, ?_, ?_, ?_, ?_⟩
  · intro f reg n o url e hf
    simp [universalExecute, hf]
  · intro f reg n o url doc pf e hf hct hr hp
    simp [universalExecute, hf, hct, hr, hp]
  · intro f reg n o url doc pf records e hf hct hr hp hn
    simp [universalExecute, hf, hct, hr, hp, hn]
  · intro f reg n o url doc pf records items e hf hct hr hp hn ho
    simp [universalExecute, hf, hct, hr, hp, hn, ho]
  · intro f p n o url e hu hf
    simp [bcraExecute, hu, hf]
  · intro f p n o url doc t e hu hf htx hts hp
    simp [bcraExecute, hu, hf, htx, hts, hp]
  · intro f p n o url doc t records e hu hf htx hts hp hre hn
    simp [bcraExecute, hu, hf, htx, hts, hp, hre, hn]
  · intro f p n o url doc t records items e hu hf htx hts hp hre hn hie ho
    simp [bcraExecute, hu, hf, htx, hts, hp, hre, hn, hie, ho]

/-- C7 witness: the theorem applied with concrete raising collaborators —
a raising fetcher makes both orchestrators return `[]`, and a raising
output boundary leaves the computed item list intact in both. -/
theorem stage_exception_spec_witness :
    (universalExecute fetchErr regHtml normOk emitOk "u").1 = []
      ∧ (universalExecute fetchOk regHtml normOk emitErr "u").1 = [itemSample]
      ∧ (bcraExecute fetchErr parseOk normOk emitOk "u").1 = []
      ∧ (bcraExecute fetchOk parseOk normOk emitErr "u").1 = [itemSample] :=
  ⟨stage_exception_spec.1 fetchErr regHtml normOk emitOk "u" "boom" rfl,
   stage_exception_spec.2.2.2.1 fetchOk regHtml normOk emitErr "u" docHtml parseOk
     [recSample] [itemSample] "boom" rfl (by decide) rfl rfl rfl rfl,
   stage_exception_spec.2.2.2.2.1 fetchErr parseOk normOk emitOk "u" "boom"
     (by decide) rfl,
   stage_exception_spec.2.2.2.2.2.2.2 fetchOk parseOk normOk emitErr "u" docHtml
     "<tr><td>r</td></tr>" [recSample] [itemSample] "boom"
     (by decide) rfl rfl (by decide) rfl rfl rfl rfl rfl⟩

/-- C8 counterexample: on a blank URL the universal orchestrator does not
short-circuit — it invokes the fetcher (the trace records the fetch) and,
with collaborators that succeed, returns a non-empty item list, against
the claimed shared empty-input gate. -/
theorem universal_blank_url_counter :
    universalExecute fetchOk regHtml normOk emitOk ""
        = ([itemSample], [Stage.fetch, Stage.parse, Stage.norm, Stage.emit])
      ∧ Stage.fetch ∈ (universalExecute fetchOk regHtml normOk emitOk "").2
      ∧ (universalExecute fetchOk regHtml normOk emitOk "").1 ≠ [] := by
  decide

/-- C8 (amended): only the fixed-format orchestrator has the blank-URL
gate — on an empty or whitespace-only URL it returns an empty result with
no boundary call at all; the universal orchestrator has no such gate and
invokes the fetcher on every URL, blank included. -/
theorem blank_url_gate_spec :
    (∀ (f : String → Except String Document) (p : ParserFun)
        (n : List Record → Except String (List Item))
        (o : List Item → Except String Unit) (url : String),
        stripChars url.data = [] → bcraExecute f p n o url = ([], []))
      ∧ (∀ (f : String → Except String Document)
          (reg : List (ContentType × ParserFun))
          (n : List Record → Except String (List Item))
          (o : List Item → Except String Unit) (url : String),
          Stage.fetch ∈ (universalExecute f reg n o url).2) := by
  constructor
  · intro f p n o url h
    simp [bcraExecute, h]
  · intro f reg n o url
    cases hf : f url with
    | error e => simp [universalExecute, hf]
    | ok doc =>
      by_cases hct : doc.content_type = ContentType.UNKNOWN
      · simp [universalExecute, hf, hct]
      · cases hr : routerSelect reg doc.content_type with
        | none => simp [universalExecute, hf, hct, hr]
        | some pf =>
          cases hp : pf doc with
          | error e => simp [universalExecute, hf, hct, hr, hp]
          | ok records =>
            cases hn : n records with
            | error e => simp [universalExecute, hf, hct, hr, hp, hn]
            | ok items =>
              cases ho : o items with
              | error e => simp [universalExecute, hf, hct, hr, hp, hn, ho]
              | ok u => simp [universalExecute, hf, hct, hr, hp, hn, ho]

/-- C8 witness: the amended theorem at a whitespace-only URL. -/
theorem blank_url_gate_spec_witness :
    bcraExecute fetchOk parseOk normOk emitOk " " = ([], [])
      ∧ Stage.fetch ∈ (universalExecute fetchOk regHtml normOk emitOk " ").2 :=
  ⟨blank_url_gate_spec.1 fetchOk parseOk normOk emitOk " " (by decide),
   blank_url_gate_spec.2 fetchOk regHtml normOk emitOk " "⟩

/-- C9: the generic normalizer is a pure function of the record list — the
Python class holds no mutable attributes, so two runs on the same list
yield element-wise equal item lists. -/
theorem generic_normalize_deterministic :
    ∀ (rs : List Record) (i : Nat)
      (h1 : i < (genericNormalize rs).length) (h2 : i < (genericNormalize rs).length),
      (genericNormalize rs).get ⟨i, h1⟩ = (genericNormalize rs).get ⟨i, h2⟩
        ∧ genericNormalize rs = genericNormalize rs := by
  intro rs i h1 h2
  exact ⟨rfl, rfl⟩

/-- C9 witness: the theorem at a concrete record list and index. -/
theorem generic_normalize_deterministic_witness :
    (genericNormalize [recSample]).get ⟨0, by decide⟩
        = (genericNormalize [recSample]).get ⟨0, by decide⟩
      ∧ genericNormalize [recSample] = genericNormalize [recSample] :=
  generic_normalize_deterministic [recSample] 0 (by decide) (by decide)

/-- Helper for C10: an occurrence of `a ++ b` at the front is in particular
an occurrence of `a` at the front. -/
theorem listHasPre_of_append (a b : List Char) :
    ∀ l, listHasPre (a ++ b) l = true → listHasPre a l = true := by
  induction a with
  | nil => intro l _; rfl
  | cons x xs ih =>
    intro l h
    cases l with
    | nil => simp [listHasPre] at h
    | cons y ys =>
      simp [listHasPre] at h ⊢
      exact ⟨h.1, ih ys h.2⟩

/-- Helper for C10: a string containing `a ++ b` contains `a`. -/
theorem listHasSub_of_append (a b : List Char) :
    ∀ hay, listHasSub (a ++ b) hay = true → listHasSub a hay = true := by
  intro hay
  induction hay with
  | nil =>
    intro h
    exact listHasPre_of_append a b [] h
  | cons y ys ih =>
    intro h
    simp only [listHasSub, Bool.or_eq_true] at h ⊢
    rcases h with h | h
    · exact Or.inl (listHasPre_of_append a b _ h)
    · exact Or.inr (ih h)

/-- C10: a lowercased header containing `xlsx` but none of `html`, `csv`,
`excel`, `spreadsheet` is classified XLS: every string containing `xlsx`
contains `xls`, so the earlier `xls` branch fires and the dedicated `xlsx`
branch is unreachable. -/
theorem detect_xlsx_is_xls :
    ∀ header url : String,
      listHasSub "xlsx".data (lowerStr header) = true →
      listHasSub "html".data (lowerStr header) = false →
      listHasSub "csv".data (lowerStr header) = false →
      listHasSub "excel".data (lowerStr header) = false →
      listHasSub "spreadsheet".data (lowerStr header) = false →
      detect_content_type header url = ContentType.XLS := by
  intro header url hx hh hc he hs
  have hsplit : "xls".data ++ ['x'] = "xlsx".data := by decide
  have hxls : listHasSub "xls".data (lowerStr header) = true :=
    listHasSub_of_append "xls".data ['x'] (lowerStr header) (by rw [hsplit]; exact hx)
  simp [detect_content_type, hh, hc, he, hs, hxls]

/-- C10 witness: the theorem at a concrete `xlsx` header. -/
theorem detect_xlsx_is_xls_witness :
    detect_content_type "application/xlsx" "http://e/f" = ContentType.XLS :=
  detect_xlsx_is_xls "application/xlsx" "http://e/f"
    (by decide) (by decide) (by decide) (by decide) (by decide)
